import Mathlib

/-
Verification of the wire-marshaling and error-normalization layer of the
pysolr client (src/pysolr.py) against its natural-language specification.

The Python code is shallowly embedded: Python runtime values are modelled by
the inductive `PyVal`; functions of the library become Lean functions over
`PyVal`, strings and lists.  The embedding follows Python 2 semantics, which
is what the source targets (it uses `iteritems`, `types.ListType`,
`basestring`, and byte-string replacements).
-/

namespace PySolr

set_option maxRecDepth 65536

/-- A Python runtime value, as far as the library manipulates them.
`pyFloat` and `pyComplex` carry the value's textual form (its `str()`
rendering); the library never does arithmetic on them, it only renders
them to text or tests their type.  `pyBool` is kept separate from `pyInt`
although Python's `bool` is a subclass of `int`; the type-test functions
below account for the subclassing. -/
inductive PyVal where
  | pyNone : PyVal
  | pyBool (b : Bool) : PyVal
  | pyInt (n : Int) : PyVal
  | pyFloat (text : String) : PyVal
  | pyComplex (text : String) : PyVal
  | pyStr (s : String) : PyVal
  | pyList (xs : List PyVal) : PyVal
  | pyTuple (xs : List PyVal) : PyVal
  | pySet (xs : List PyVal) : PyVal
  | pyDict (entries : List (PyVal × PyVal)) : PyVal
  | pyDate (year month day : Nat) : PyVal
  | pyDatetime (year month day hour minute second microsecond : Nat) : PyVal

mutual

/-- Python `==` on the values above, used where the library compares values
(dictionary key lookup for the boost mapping).  Structural; Python's
cross-type numeric equality (`True == 1`, `1 == 1.0`) and order-insensitive
set equality are not modelled — the library only ever compares strings and
numbers of one type in these positions. -/
def pyEq : PyVal → PyVal → Bool
  | .pyNone, .pyNone => true
  | .pyBool a, .pyBool b => a == b
  | .pyInt a, .pyInt b => a == b
  | .pyFloat a, .pyFloat b => a == b
  | .pyComplex a, .pyComplex b => a == b
  | .pyStr a, .pyStr b => a == b
  | .pyList a, .pyList b => pyEqList a b
  | .pyTuple a, .pyTuple b => pyEqList a b
  | .pySet a, .pySet b => pyEqList a b
  | .pyDict a, .pyDict b => pyEqPairs a b
  | .pyDate y1 m1 d1, .pyDate y2 m2 d2 => y1 == y2 && m1 == m2 && d1 == d2
  | .pyDatetime y1 mo1 d1 h1 mi1 s1 u1, .pyDatetime y2 mo2 d2 h2 mi2 s2 u2 =>
      y1 == y2 && mo1 == mo2 && d1 == d2 && h1 == h2 && mi1 == mi2 && s1 == s2 && u1 == u2
  | _, _ => false

def pyEqList : List PyVal → List PyVal → Bool
  | [], [] => true
  | a :: as, b :: bs => pyEq a b && pyEqList as bs
  | _, _ => false

def pyEqPairs : List (PyVal × PyVal) → List (PyVal × PyVal) → Bool
  | [], [] => true
  | (k1, v1) :: as, (k2, v2) :: bs => pyEq k1 k2 && pyEq v1 v2 && pyEqPairs as bs
  | _, _ => false

end

/-- The characters of a zero-padded fixed-width decimal rendering (`%0*d`).
Every use in the library renders a `datetime` field, whose value fits its
width (`year ≤ 9999`, two-digit month/day/hour/minute/second, six-digit
microsecond), so the fixed-width form agrees with Python's. -/
def padDigits (w n : Nat) : List Char :=
  (List.range w).map fun i => Nat.digitChar (n / 10 ^ (w - 1 - i) % 10)

/-- Zero-padded fixed-width decimal rendering as a string. -/
def pad (w n : Nat) : String := String.mk (padDigits w n)

/-- `date.isoformat()`: `YYYY-MM-DD`. -/
def isoDate (y m d : Nat) : String := pad 4 y ++ "-" ++ pad 2 m ++ "-" ++ pad 2 d

/-- The time half of `datetime.isoformat()`: `HH:MM:SS`, with `.ffffff`
appended only when the microsecond field is nonzero. -/
def isoTime (h mi s u : Nat) : String :=
  pad 2 h ++ ":" ++ pad 2 mi ++ ":" ++ pad 2 s ++ (if u == 0 then "" else "." ++ pad 6 u)

/-- Python's `repr()` on the values the library can meet.  Container
renderings follow Python 2 (`set([...])`, a one-element tuple's trailing
comma); strings are shown between apostrophes without modelling Python's
escaping of special characters inside them (the library never renders a
container or applies `str()` to one on any path a claim exercises — `repr`
exists because `str()` of a container delegates to it). -/
def pyReprOf : PyVal → String
  | .pyNone => "None"
  | .pyBool true => "True"
  | .pyBool false => "False"
  | .pyInt n => toString n
  | .pyFloat t => t
  | .pyComplex t => t
  | .pyStr s => "'" ++ s ++ "'"
  | .pyList xs => "[" ++ String.intercalate ", " (xs.attach.map fun x => pyReprOf x.1) ++ "]"
  | .pyTuple xs =>
      "(" ++ String.intercalate ", " (xs.attach.map fun x => pyReprOf x.1) ++
        (if xs.length == 1 then ",)" else ")")
  | .pySet xs => "set([" ++ String.intercalate ", " (xs.attach.map fun x => pyReprOf x.1) ++ "])"
  | .pyDict es =>
      "\x7b" ++
        String.intercalate ", "
          (es.attach.map fun kv => pyReprOf kv.1.1 ++ ": " ++ pyReprOf kv.1.2) ++ "\x7d"
  | .pyDate y m d => "datetime.date(" ++ toString y ++ ", " ++ toString m ++ ", " ++ toString d ++ ")"
  | .pyDatetime y mo d h mi s u =>
      "datetime.datetime(" ++ toString y ++ ", " ++ toString mo ++ ", " ++ toString d ++ ", " ++
        toString h ++ ", " ++ toString mi ++
        (if s == 0 && u == 0 then "" else ", " ++ toString s) ++
        (if u == 0 then "" else ", " ++ toString u) ++ ")"
decreasing_by
  · have := List.sizeOf_lt_of_mem x.2
    simp only [PyVal.pyList.sizeOf_spec]
    omega
  · have := List.sizeOf_lt_of_mem x.2
    simp only [PyVal.pyTuple.sizeOf_spec]
    omega
  · have := List.sizeOf_lt_of_mem x.2
    simp only [PyVal.pySet.sizeOf_spec]
    omega
  · obtain ⟨⟨k, v⟩, hm⟩ := kv
    have := List.sizeOf_lt_of_mem hm
    simp only [PyVal.pyDict.sizeOf_spec, Prod.mk.sizeOf_spec] at *
    omega
  · obtain ⟨⟨k, v⟩, hm⟩ := kv
    have := List.sizeOf_lt_of_mem hm
    simp only [PyVal.pyDict.sizeOf_spec, Prod.mk.sizeOf_spec] at *
    omega

/-- Python's `str()`.  On strings it is the identity, on dates/datetimes
the ISO form (space-separated for datetimes), on the remaining scalars it
coincides with `repr()` (spelled out here so it computes structurally), and
on containers it delegates to `repr()`. -/
def pyStrOf : PyVal → String
  | .pyStr s => s
  | .pyDate y m d => isoDate y m d
  | .pyDatetime y mo d h mi s u => isoDate y mo d ++ " " ++ isoTime h mi s u
  | .pyNone => "None"
  | .pyBool true => "True"
  | .pyBool false => "False"
  | .pyInt n => toString n
  | .pyFloat t => t
  | .pyComplex t => t
  | v => pyReprOf v

/-- `Solr._is_null_value`: `(value is None) or (isinstance(value, basestring)
and len(value) == 0)`. -/
def isNullValue : PyVal → Bool
  | .pyNone => true
  | .pyStr s => s.length == 0
  | _ => false

/-- `hasattr(value, '__iter__')` under Python 2, together with the entries
iteration yields: lists, tuples and sets yield their elements, a dict yields
its keys; strings (and every scalar) have no `__iter__` in Python 2. -/
def iterElems : PyVal → Option (List PyVal)
  | .pyList xs => some xs
  | .pyTuple xs => some xs
  | .pySet xs => some xs
  | .pyDict es => some (es.map Prod.fst)
  | _ => none

/-- `Solr._from_python`: values with `strftime` render to ISO text (`...Z`
for datetimes, `...T00:00:00Z` for dates), booleans to `true`/`false`,
strings pass through (`unicode(value, errors='replace')` is the identity on
text), and everything else renders via `unicode(value)`, i.e. `str()`. -/
def fromPython : PyVal → String
  | .pyDatetime y mo d h mi s u => isoDate y mo d ++ "T" ++ isoTime h mi s u ++ "Z"
  | .pyDate y m d => isoDate y m d ++ "T00:00:00Z"
  | .pyBool true => "true"
  | .pyBool false => "false"
  | .pyStr s => s
  | v => pyStrOf v

/-- Decimal value of a two-digit group, chars assumed decimal digits. -/
def dec2 (a b : Char) : Nat := (a.toNat - 48) * 10 + (b.toNat - 48)

/-- `\d*Z` at end of input, used after the first fractional digit. -/
def digitsStarZ : List Char → Bool
  | [] => false
  | c :: rest => if rest.isEmpty then c == 'Z' else c.isDigit && digitsStarZ rest

/-- `\d+Z` at end of input (the body of the optional fraction). -/
def digitsPlusZ : List Char → Bool
  | [] => false
  | c :: rest => c.isDigit && digitsStarZ rest

/-- The tail of `DATETIME_REGEX` after the seconds group:
`(\.\d+)?Z$` — either `Z` at once, or a dot, one or more fractional digits
and then `Z`. -/
def fracThenZ : List Char → Bool
  | [] => false
  | c :: rest => if rest.isEmpty then c == 'Z' else c == '.' && digitsPlusZ rest

/-- `DATETIME_REGEX` =
`^(\d{4})-(\d{2})-(\d{2})T(\d{2}):(\d{2}):(\d{2})(\.\d+)?Z$` applied to a
character list; on a match, the six named groups converted with `int()`.
(Python's `$` would also accept one trailing newline; no caller ever passes
one.) -/
def matchDatetimeList : List Char → Option (Nat × Nat × Nat × Nat × Nat × Nat)
  | y1 :: y2 :: y3 :: y4 :: c1 :: m1 :: m2 :: c2 :: d1 :: d2 :: c3 ::
      h1 :: h2 :: c4 :: n1 :: n2 :: c5 :: s1 :: s2 :: rest =>
    if y1.isDigit && y2.isDigit && y3.isDigit && y4.isDigit && c1 == '-' &&
        m1.isDigit && m2.isDigit && c2 == '-' && d1.isDigit && d2.isDigit && c3 == 'T' &&
        h1.isDigit && h2.isDigit && c4 == ':' && n1.isDigit && n2.isDigit && c5 == ':' &&
        s1.isDigit && s2.isDigit && fracThenZ rest then
      some (dec2 y1 y2 * 100 + dec2 y3 y4, dec2 m1 m2, dec2 d1 d2,
        dec2 h1 h2, dec2 n1 n2, dec2 s1 s2)
    else none
  | _ => none

/-- `DATETIME_REGEX.search` on a string (the pattern is `^...$`-anchored, so
search and full match coincide). -/
def matchDatetime (s : String) : Option (Nat × Nat × Nat × Nat × Nat × Nat) :=
  matchDatetimeList s.toList

/-- The validation `datetime.datetime(...)` performs on its arguments
(proleptic Gregorian calendar, year 1–9999). -/
def validYmdhms (y mo d h mi s : Nat) : Prop :=
  1 ≤ y ∧ y ≤ 9999 ∧ 1 ≤ mo ∧ mo ≤ 12 ∧ 1 ≤ d ∧
    d ≤ (if mo = 2 then (if y % 4 = 0 ∧ (y % 100 ≠ 0 ∨ y % 400 = 0) then 29 else 28)
         else if mo = 4 ∨ mo = 6 ∨ mo = 9 ∨ mo = 11 then 30 else 31) ∧
    h ≤ 23 ∧ mi ≤ 59 ∧ s ≤ 59

instance (y mo d h mi s : Nat) : Decidable (validYmdhms y mo d h mi s) := by
  unfold validYmdhms; infer_instance

/-- The `datetime.datetime(year, month, day, hour, minute, second)` call in
`_to_python`: the constructor validates its fields and raises `ValueError`
(modelled as `none`) when they are out of range; the microsecond defaults
to zero. -/
def mkDatetime (y mo d h mi s : Nat) : Option PyVal :=
  if validYmdhms y mo d h mi s then some (.pyDatetime y mo d h mi s 0) else none

/-- `isinstance(value, (int, float, long, complex))` — Python's `bool` is a
subclass of `int`, so booleans pass this test. -/
def numLike : PyVal → Bool
  | .pyBool _ => true
  | .pyInt _ => true
  | .pyFloat _ => true
  | .pyComplex _ => true
  | _ => false

/-- The `value = value[0]` step of `_to_python` for lists and tuples:
`none` models the uncaught `IndexError` on an empty sequence; any other
value passes through unchanged. -/
def seqFirst : PyVal → Option PyVal
  | .pyList [] => none
  | .pyList (x :: _) => some x
  | .pyTuple [] => none
  | .pyTuple (x :: _) => some x
  | v => some v

/-- `isinstance(converted_value,
(list, tuple, set, dict, int, float, long, complex))` in `_to_python`'s
speculative `eval` pass — again `bool` counts as `int`. -/
def builtinLiteralKind : PyVal → Bool
  | .pyList _ => true
  | .pyTuple _ => true
  | .pySet _ => true
  | .pyDict _ => true
  | .pyInt _ => true
  | .pyFloat _ => true
  | .pyComplex _ => true
  | .pyBool _ => true
  | _ => false

/-- The `try: converted_value = eval(value) ...` block of `_to_python`.
`eval` itself is the Python interpreter, external to the library; it is
passed in as `evalFn`, with `none` standing for any exception it raises
(all are swallowed by the bare `except`). -/
def evalBranch (evalFn : String → Option PyVal) (s : String) : Option PyVal :=
  match evalFn s with
  | some v => if builtinLiteralKind v then some v else some (.pyStr s)
  | none => some (.pyStr s)

/-- `Solr._to_python`.  `none` models an uncaught exception (`IndexError`
on an empty list/tuple, or `ValueError` from the `datetime` constructor).
Non-string values that reach the `eval` step make `eval` raise `TypeError`,
which the bare `except` swallows, so they are returned unchanged; the
string comparisons with `'true'`/`'false'` can only succeed for strings. -/
def toPython (evalFn : String → Option PyVal) (value : PyVal) : Option PyVal :=
  if numLike value then some value
  else
    match seqFirst value with
    | none => none
    | some value =>
      match value with
      | .pyStr s =>
        if s = "true" then some (.pyBool true)
        else if s = "false" then some (.pyBool false)
        else
          match matchDatetime s with
          | some (y, mo, d, h, mi, sec) => mkDatetime y mo d h mi sec
          | none => evalBranch evalFn s
      | v => some v

/-- The left-hand sides of `REPLACEMENTS`: the C0 control codes the
sanitizer strips (0x00–0x08, 0x0B, 0x0C, 0x0E–0x1F; tab 0x09, newline 0x0A
and carriage return 0x0D are absent), in the source's order. -/
def replacementChars : List Char :=
  ['\x00', '\x01', '\x02', '\x03', '\x04', '\x05', '\x06', '\x07', '\x08',
   '\x0b', '\x0c', '\x0e', '\x0f', '\x10', '\x11', '\x12', '\x13', '\x14',
   '\x15', '\x16', '\x17', '\x18', '\x19', '\x1a', '\x1b', '\x1c', '\x1d',
   '\x1e', '\x1f']

/-- `str.replace(bad, '')` for a one-character pattern: every occurrence of
`bad` is removed, all other characters stay in place. -/
def replaceRemove : List Char → Char → List Char
  | [], _ => []
  | c :: rest, bad => if c = bad then replaceRemove rest bad else c :: replaceRemove rest bad

/-- `sanitize(data)`: one `replace` per `REPLACEMENTS` entry, in order. -/
def sanitize (data : String) : String :=
  String.mk (replacementChars.foldl replaceRemove data.toList)

/-- The UTF-8 bytes of a string, as numbers. -/
def utf8Bytes (s : String) : List Nat := s.toUTF8.toList.map fun b => b.toNat

/-- `urllib`'s `always_safe` bytes under Python 2: ASCII letters, digits,
and `_`, `.`, `-`. -/
def alwaysSafeByte (b : Nat) : Bool :=
  (65 ≤ b && b ≤ 90) || (97 ≤ b && b ≤ 122) || (48 ≤ b && b ≤ 57) ||
    b == 95 || b == 46 || b == 45

/-- An uppercase hexadecimal digit. -/
def hexDigitChar (n : Nat) : Char :=
  if n < 10 then Nat.digitChar n else Char.ofNat (55 + n)

/-- `%XX` percent-escape of one byte. -/
def percentByte (b : Nat) : String :=
  "%" ++ String.mk [hexDigitChar (b / 16 % 16), hexDigitChar (b % 16)]

/-- `urllib.quote_plus` with the default empty `safe` set, applied to the
UTF-8 encoding of a text: safe bytes pass through, a space becomes `+`,
every other byte becomes `%XX`. -/
def quotePlus (s : String) : String :=
  String.join ((utf8Bytes s).map fun b =>
    if alwaysSafeByte b then String.mk [Char.ofNat b]
    else if b == 32 then "+"
    else percentByte b)

/-- `safe_urlencode(params, doseq=1)` restricted to textual parameter
values, the only shape the select path ever builds: each key and value is
UTF-8 encoded and percent-quoted, pairs joined `k=v` with `&`. -/
def safeUrlencode (params : List (String × String)) : String :=
  String.intercalate "&" (params.map fun kv => quotePlus kv.1 ++ "=" ++ quotePlus kv.2)

/-- `params['wt'] = 'json'`: dictionary assignment on an insertion-ordered
mapping — overwrite in place when the key exists, append otherwise. -/
def setParam (params : List (String × String)) (k v : String) : List (String × String) :=
  if params.any fun p => p.1 == k then
    params.map fun p => if p.1 == k then (k, v) else p
  else params ++ [(k, v)]

/-- The transport method of a dispatched request. -/
inductive HttpMethod | get | post
deriving DecidableEq

/-- What `_send_request` hands to the external HTTP transport: method,
path relative to the endpoint, optional body, headers (`[]` models
Python's `headers=None`). -/
structure Request where
  method : HttpMethod
  path : String
  body : Option String
  headers : List (String × String)
deriving DecidableEq

/-- `Solr._select`: force `wt=json`, URL-encode, then dispatch a GET with
the query string on the path when the encoded form is under 1024
characters, a form-encoded POST otherwise. -/
def selectReq (params : List (String × String)) : Request :=
  let params := setParam params "wt" "json"
  let paramsEncoded := safeUrlencode params
  if paramsEncoded.length < 1024 then
    { method := .get, path := "select/?" ++ paramsEncoded, body := none, headers := [] }
  else
    { method := .post, path := "select/", body := some paramsEncoded,
      headers := [("Content-type", "application/x-www-form-urlencoded; charset=utf-8")] }

/-- One `query_vars.append('name=%s' % str(bool(x)).lower())` step of
`_update`, guarded by `x is not None`. -/
def boolQueryVar (name : String) : Option Bool → List String
  | some b => [name ++ "=" ++ (if b then "true" else "false")]
  | none => []

/-- `Solr._update`: the update path with `commit`, `waitFlush` and
`waitSearcher` appended exactly when not `None`, the body sanitized unless
`clean_ctrl_chars` is switched off, sent as an XML POST. -/
def updateReq (message : String) (cleanCtrlChars : Bool)
    (commit waitFlush waitSearcher : Option Bool) : Request :=
  let path := "update/"
  let queryVars := boolQueryVar "commit" commit ++ boolQueryVar "waitFlush" waitFlush ++
    boolQueryVar "waitSearcher" waitSearcher
  let path := if queryVars.isEmpty then path else path ++ "?" ++ String.intercalate "&" queryVars
  let message := if cleanCtrlChars then sanitize message else message
  { method := .post, path := path, body := some message,
    headers := [("Content-type", "text/xml; charset=utf-8")] }

/-- The exceptions the dispatcher layer can raise. -/
inductive PyExc
  | solrError (msg : String)
  | typeError (msg : String)
  | valueError (msg : String)
deriving DecidableEq

/-- `Solr.delete`: exactly one of `id`/`q` must be given; the corresponding
delete message is handed to `_update` (an `error` result models the
`ValueError` raised before any request is built, so the transport is never
invoked). `commit` defaults to `True` at the Python signature. -/
def deleteCmd (id q : Option String) (commit waitFlush waitSearcher : Option Bool) :
    Except PyExc Request :=
  match id, q with
  | none, none => .error (.valueError "You must specify \"id\" or \"q\".")
  | some _, some _ => .error (.valueError "You many only specify \"id\" OR \"q\", not both.")
  | some i, none =>
      .ok (updateReq ("<delete><id>" ++ i ++ "</id></delete>") true commit waitFlush waitSearcher)
  | none, some qq =>
      .ok (updateReq ("<delete><query>" ++ qq ++ "</query></delete>") true
        commit waitFlush waitSearcher)

/-- The transport requests a call performs: none for a raised precondition
error, one otherwise. -/
def requestsSent : Except PyExc Request → List Request
  | .error _ => []
  | .ok r => [r]

/-- `Solr.commit`: builds `<commit />` (with an `expungeDeletes` attribute
when that flag is not `None`) and hands it to `_update`, whose `commit`
parameter is left at its default `True`. -/
def commitCmd (waitFlush waitSearcher expungeDeletes : Option Bool) : Request :=
  let msg := match expungeDeletes with
    | some b => "<commit expungeDeletes=\"" ++ (if b then "true" else "false") ++ "\" />"
    | none => "<commit />"
  updateReq msg true (some true) waitFlush waitSearcher

/-- `Solr.optimize`: `<optimize />`, with a `maxSegments` attribute when the
argument is truthy (a nonzero segment count). -/
def optimizeCmd (waitFlush waitSearcher : Option Bool) (maxSegments : Option Int) : Request :=
  let msg := match maxSegments with
    | some n => if n == 0 then "<optimize />" else "<optimize maxSegments=\"" ++ toString n ++ "\" />"
    | none => "<optimize />"
  updateReq msg true (some true) waitFlush waitSearcher

/-- A `<field name=... boost=...>text</field>` element of the add message. -/
structure FieldElem where
  name : String
  boostAttr : Option String
  text : String
deriving DecidableEq

/-- A `<doc boost=...>` element. -/
structure DocElem where
  boostAttr : Option String
  fields : List FieldElem
deriving DecidableEq

/-- The `<add commitWithin=...>` root element built by `Solr.add`. -/
structure AddMessage where
  commitWithin : Option String
  docs : List DocElem
deriving DecidableEq

/-- A document passed to `add`: an insertion-ordered mapping from field
name to value, as `doc.items()` yields it. -/
abbrev Document := List (String × PyVal)

/-- The `boost` argument of `add`: a Python dict keyed by field name or by
individual multi-value entry, insertion-ordered.  The empty list also
stands for `boost=None` — both are falsy and the code only tests
truthiness and membership. -/
abbrev BoostMap := List (PyVal × PyVal)

/-- Dict lookup `boost[k]`, Python `==` on keys. -/
def lookupAssoc : BoostMap → PyVal → Option PyVal
  | [], _ => none
  | (k', v) :: rest, k => if pyEq k' k then some v else lookupAssoc rest k

/-- Dict assignment `boost[k] = v`: the existing entry keeps its place (and
its original key object); a missing key would be appended. -/
def setAssoc : BoostMap → PyVal → PyVal → BoostMap
  | [], k, v => [(k, v)]
  | (k', v') :: rest, k, v =>
      if pyEq k' k then (k', v) :: rest else (k', v') :: setAssoc rest k v

/-- One `ET.Element('field', ...)` construction in `add`: when the boost
dict is truthy and holds `lookupKey`, the entry is first coerced in place
to its `str()` form (`boost[lookupKey] = str(boost[lookupKey])` — this
mutates the caller's mapping; the `isinstance(boost, basestring)` guard is
always satisfied by a mapping) and used as the `boost` attribute.  Returns
the element and the possibly-updated boost dict. -/
def emitField (boost : BoostMap) (key : String) (lookupKey v : PyVal) :
    FieldElem × BoostMap :=
  if !boost.isEmpty && (lookupAssoc boost lookupKey).isSome then
    let bv := (lookupAssoc boost lookupKey).getD .pyNone
    ({ name := key, boostAttr := some (pyStrOf bv), text := fromPython v },
      setAssoc boost lookupKey (.pyStr (pyStrOf bv)))
  else
    ({ name := key, boostAttr := none, text := fromPython v }, boost)

/-- One `for key, value in doc.items()` iteration of `add`.  The special
key `"boost"` sets the doc element's boost attribute.  An iterable value
emits one field element per entry — the null check in that loop tests
`value`, the whole container, exactly as the source does (`if
self._is_null_value(value)` inside `for v in value`), so it never skips an
entry.  A scalar value is checked with `_is_null_value(value)` and skipped
when null. -/
def buildDocField (st : DocElem × BoostMap) (kv : String × PyVal) : DocElem × BoostMap :=
  let d := st.1
  let boost := st.2
  let key := kv.1
  let value := kv.2
  if key = "boost" then ({ d with boostAttr := some (pyStrOf value) }, boost)
  else
    match iterElems value with
    | some vs =>
        vs.foldl
          (fun (st : DocElem × BoostMap) v =>
            if isNullValue value then st
            else
              let fb := emitField st.2 key v v
              ({ st.1 with fields := st.1.fields ++ [fb.1] }, fb.2))
          (d, boost)
    | none =>
        if isNullValue value then (d, boost)
        else
          let fb := emitField boost key (.pyStr key) value
          ({ d with fields := d.fields ++ [fb.1] }, fb.2)

/-- One `<doc>` element of the add message. -/
def buildDoc (boost : BoostMap) (doc : Document) : DocElem × BoostMap :=
  doc.foldl buildDocField ({ boostAttr := none, fields := [] }, boost)

/-- The message-building half of `Solr.add` (everything before
`ET.tostring` and the `_update` call): builds the `<add>` element tree and
returns it together with the boost dict as the calls above leave it.
`if commitWithin:` is a truthiness test, so an empty string sets no
attribute. -/
def buildAddMessage (docs : List Document) (boost : BoostMap)
    (commitWithin : Option String) : AddMessage × BoostMap :=
  let cw := match commitWithin with
    | some s => if s.isEmpty then none else some s
    | none => none
  docs.foldl
    (fun (st : AddMessage × BoostMap) doc =>
      let db := buildDoc st.2 doc
      ({ st.1 with docs := st.1.docs ++ [db.1] }, db.2))
    ({ commitWithin := cw, docs := [] }, boost)

/-- Python's `%` string formatting restricted to `%s` specifiers: each
`%s` consumes one argument; too few arguments (`not enough arguments for
format string`) or leftover ones (`not all arguments converted`) raise
`TypeError`, modelled as `none`. -/
def pyFormatS : List Char → List String → Option String
  | [], [] => some ""
  | [], _ :: _ => none
  | '%' :: 's' :: rest, a :: args => (pyFormatS rest args).map fun t => a ++ t
  | '%' :: 's' :: _, [] => none
  | c :: rest, args => (pyFormatS rest args).map fun t => String.mk [c] ++ t

/-- The right operand of `%`: a tuple supplies one argument per element;
any non-tuple value (here: the list the timeout handler passes) is a
single argument whose `str()` form would be substituted. -/
inductive PyFormatOperand
  | tuple (args : List String)
  | single (text : String)

/-- `fmt % operand`. -/
def pyPercent (fmt : String) : PyFormatOperand → Option String
  | .tuple args => pyFormatS fmt.toList args
  | .single t => pyFormatS fmt.toList [t]

/-- `\w` of Python 2's `re` without `re.UNICODE`: `[a-zA-Z0-9_]`. -/
def isWordChar (c : Char) : Bool := c.isAlpha || c.isDigit || c == '_'

/-- Longest `\w*` prefix and the remainder. -/
def takeWord : List Char → List Char × List Char
  | [] => ([], [])
  | c :: rest =>
      if isWordChar c then
        let wr := takeWord rest
        (c :: wr.1, wr.2)
      else ([], c :: rest)

/-- Matching `#?\w+;` right after a `&`: returns the matched characters
(without the `&`) and the remainder.  The pattern `&#?\w+;` cannot match
anywhere with a shorter word, since every proper prefix of the word run is
followed by a word character rather than `;`. -/
def entityAfterAmp (l : List Char) : Option (List Char × List Char) :=
  let hl : List Char × List Char := match l with
    | '#' :: t => (['#'], t)
    | _ => ([], l)
  let wr := takeWord hl.2
  if wr.1.isEmpty then none
  else
    match wr.2 with
    | ';' :: rest => some (hl.1 ++ wr.1 ++ [';'], rest)
    | _ => none

/-- Decimal `int()` of a word (no sign, no whitespace can occur inside
`\w+`); `none` models `ValueError`. -/
def decNum : List Char → Option Nat
  | [] => none
  | l => l.foldl (fun acc c => match acc with
      | some n => if c.isDigit then some (n * 10 + (c.toNat - 48)) else none
      | none => none) (some 0)

/-- Hexadecimal `int(_, 16)` of a word; `none` models `ValueError`. -/
def hexNum : List Char → Option Nat
  | [] => none
  | l => l.foldl (fun acc c => match acc with
      | some n =>
          if c.isDigit then some (n * 16 + (c.toNat - 48))
          else if 'a' ≤ c && c ≤ 'f' then some (n * 16 + (c.toNat - 87))
          else if 'A' ≤ c && c ≤ 'F' then some (n * 16 + (c.toNat - 55))
          else none
      | none => none) (some 0)

/-- Whether `unichr(n)`'s result is representable here.  Python accepts any
`n ≤ 0x10FFFF` including lone surrogates; a surrogate reference is left
unreplaced in this model since Lean characters are scalar values (no
library path produces one). -/
def validScalar (n : Nat) : Bool := n < 0xd800 || (0xe000 ≤ n && n < 0x110000)

/-- The `fixup` closure of `unescape_html`, applied to one matched
reference.  `hasHash` and `w` are the parsed `#?` and `\w+` parts;
`n2c` is the stdlib `htmlentitydefs.name2codepoint` table, external to the
library.  Failures (`ValueError` from `int`/`unichr`, `KeyError` from the
table) leave the matched text unchanged. -/
def entityFixup (n2c : String → Option Nat) (hasHash : Bool) (w : List Char) : List Char :=
  let original := '&' :: ((if hasHash then ['#'] else []) ++ w ++ [';'])
  if hasHash then
    match w with
    | 'x' :: hs =>
        match hexNum hs with
        | some n => if validScalar n then [Char.ofNat n] else original
        | none => original
    | _ =>
        match decNum w with
        | some n => if validScalar n then [Char.ofNat n] else original
        | none => original
  else
    match n2c (String.mk w) with
    | some n => if validScalar n then [Char.ofNat n] else original
    | none => original

/-- The scan of `re.sub("&#?\w+;", fixup, text)`: non-overlapping matches
replaced left to right.  `fuel` bounds the recursion; each step consumes at
least one character, so the initial fuel (the text's length) never runs
out. -/
def unescapeGo (n2c : String → Option Nat) : Nat → List Char → List Char
  | _, [] => []
  | 0, l => l
  | fuel + 1, '&' :: rest =>
      match entityAfterAmp rest with
      | some mr =>
          (match mr.1 with
            | '#' :: w => entityFixup n2c true (w.dropLast)
            | w => entityFixup n2c false (w.dropLast)) ++ unescapeGo n2c fuel mr.2
      | none => '&' :: unescapeGo n2c fuel rest
  | fuel + 1, c :: rest => c :: unescapeGo n2c fuel rest

/-- `unescape_html(text)`. -/
def unescapeHtml (n2c : String → Option Nat) (text : String) : String :=
  String.mk (unescapeGo n2c text.toList.length text.toList)

/-- `Solr._extract_error`.  The `reason` header is used verbatim when
present; otherwise `_scrape_response` — whose body delegates to the
external lxml/ElementTree parsers and is passed in as `scrapeFn` (server
header and body to (reason, cleaned full html)) — supplies the pair.
`"[Reason: %s]" % None` renders as `[Reason: None]`, followed by the
entity-unescaped page dump. -/
def extractError (scrapeFn : Option String → String → Option String × String)
    (n2c : String → Option Nat) (reasonHeader serverHeader : Option String)
    (body : String) : String :=
  let rf : Option String × String := match reasonHeader with
    | some r => (some r, "")
    | none => scrapeFn serverHeader body
  let msg := "[Reason: " ++ (match rf.1 with | some r => r | none => "None") ++ "]"
  match rf.1 with
  | some _ => msg
  | none => msg ++ "\n" ++ unescapeHtml n2c rf.2

/-- What the external transport call inside `_send_request` did: raised a
timeout, raised a connection error, or returned a response (its status,
`reason` and `server` headers, and body). -/
inductive TransportOutcome
  | timeout (err : String)
  | connError (err : String)
  | response (status : Nat) (reasonHeader serverHeader : Option String) (body : String)

/-- The outcome of `_send_request` as seen by its caller. -/
inductive ReqResult
  | ok (body : String)
  | raised (e : PyExc)
deriving DecidableEq

/-- The timeout handler's format string. -/
def timeoutMsgFormat : String := "Connection to server '%s' timed out: %s"

/-- The connection-error handler's format string. -/
def connErrorMsgFormat : String :=
  "Failed to connect to server at '%s', are you sure that URL is correct? Checking it in a browser might help: %s"

/-- `Solr._send_request` after the transport call (the logging calls carry
no behaviour).  The timeout handler evaluates `error_message % [url, err]`
— a list, not a tuple, so `%` sees a single argument against two `%s`
specifiers; the connection-error handler uses a proper tuple.  A response
with status other than exactly 200 raises `SolrError` with the extracted
message; a 200 response returns the raw body. -/
def sendRequest (scrapeFn : Option String → String → Option String × String)
    (n2c : String → Option Nat) (url : String) (t : TransportOutcome) : ReqResult :=
  match t with
  | .timeout err =>
      match pyPercent timeoutMsgFormat
          (.single (pyStrOf (.pyList [.pyStr url, .pyStr err]))) with
      | some m => .raised (.solrError m)
      | none => .raised (.typeError "not enough arguments for format string")
  | .connError err =>
      match pyPercent connErrorMsgFormat (.tuple [url, err]) with
      | some m => .raised (.solrError m)
      | none => .raised (.typeError "not enough arguments for format string")
  | .response status reasonHeader serverHeader body =>
      if status != 200 then
        .raised (.solrError (extractError scrapeFn n2c reasonHeader serverHeader body))
      else .ok body

/-- Relation used to state what `add` does to the caller's boost mapping:
the entry keeps its key and place, and its value is either untouched or
replaced by the `str()` form of the original value. -/
def boostStringified (p q : PyVal × PyVal) : Prop :=
  p.1 = q.1 ∧ (q.2 = p.2 ∨ q.2 = PyVal.pyStr (pyStrOf p.2))

/-! ### Helper lemmas -/

theorem strToList_eq (s : String) : s.toList = s.data := rfl

theorem strToList_mk (l : List Char) : (String.mk l).toList = l := rfl

theorem strToList_append (a b : String) : (a ++ b).toList = a.toList ++ b.toList :=
  String.data_append a b

theorem pad_length (w n : Nat) : (pad w n).length = w := by
  simp [pad, padDigits, String.length_mk]

theorem digitChar_isDigit {k : Nat} (h : k < 10) : (Nat.digitChar k).isDigit = true := by
  interval_cases k <;> rfl

theorem digitChar_mod_isDigit (n : Nat) : (Nat.digitChar (n % 10)).isDigit = true :=
  digitChar_isDigit (Nat.mod_lt _ (by norm_num))

theorem digitChar_toNat {k : Nat} (h : k < 10) : (Nat.digitChar k).toNat = 48 + k := by
  interval_cases k <;> rfl

theorem digitChar_mod_toNat (n : Nat) : (Nat.digitChar (n % 10)).toNat = 48 + n % 10 :=
  digitChar_toNat (Nat.mod_lt _ (by norm_num))

theorem dec2_digitChar (a b : Nat) :
    dec2 (Nat.digitChar (a % 10)) (Nat.digitChar (b % 10)) = a % 10 * 10 + b % 10 := by
  simp [dec2, digitChar_mod_toNat]

theorem padDigits_two (n : Nat) :
    padDigits 2 n = [Nat.digitChar (n / 10 % 10), Nat.digitChar (n % 10)] := by
  show (List.range 2).map _ = _
  rw [show List.range 2 = [0, 1] from rfl]
  norm_num

theorem padDigits_four (n : Nat) :
    padDigits 4 n = [Nat.digitChar (n / 1000 % 10), Nat.digitChar (n / 100 % 10),
      Nat.digitChar (n / 10 % 10), Nat.digitChar (n % 10)] := by
  show (List.range 4).map _ = _
  rw [show List.range 4 = [0, 1, 2, 3] from rfl]
  norm_num

theorem padDigits_six (n : Nat) :
    padDigits 6 n = [Nat.digitChar (n / 100000 % 10), Nat.digitChar (n / 10000 % 10),
      Nat.digitChar (n / 1000 % 10), Nat.digitChar (n / 100 % 10),
      Nat.digitChar (n / 10 % 10), Nat.digitChar (n % 10)] := by
  show (List.range 6).map _ = _
  rw [show List.range 6 = [0, 1, 2, 3, 4, 5] from rfl]
  norm_num

theorem digitsStarZ_append {l : List Char} (h : ∀ c ∈ l, c.isDigit = true) :
    digitsStarZ (l ++ ['Z']) = true := by
  induction l with
  | nil => rfl
  | cons c t ih =>
      have hne : ((t ++ ['Z']).isEmpty) = false := by
        simp [List.isEmpty_iff]
      simp only [List.cons_append, digitsStarZ, hne, Bool.if_false_right,
        Bool.if_true_left]
      simp [h c (by simp), ih fun c hc => h c (by simp [hc])]

theorem matchDatetime_iso (y mo d h mi s u : Nat) (hy : y ≤ 9999) (hmo : mo ≤ 99)
    (hd : d ≤ 99) (hh : h ≤ 99) (hmi : mi ≤ 99) (hs : s ≤ 99) :
    matchDatetime (isoDate y mo d ++ "T" ++ isoTime h mi s u ++ "Z") =
      some (y, mo, d, h, mi, s) := by
  unfold matchDatetime isoDate isoTime pad
  by_cases hu : (u == 0) = true
  · rw [if_pos hu]
    simp only [strToList_eq, String.data_append, padDigits_four, padDigits_two]
    show matchDatetimeList _ = _
    simp only [List.cons_append, List.nil_append, List.append_assoc]
    norm_num [matchDatetimeList, digitChar_mod_isDigit, fracThenZ, dec2, digitChar_mod_toNat]
    omega
  · rw [if_neg hu]
    simp only [strToList_eq, String.data_append, padDigits_four, padDigits_two, padDigits_six]
    show matchDatetimeList _ = _
    simp only [List.cons_append, List.nil_append, List.append_assoc]
    norm_num [matchDatetimeList, digitChar_mod_isDigit, fracThenZ, digitsPlusZ,
      digitsStarZ, dec2, digitChar_mod_toNat]
    omega

theorem toPython_pyStr (evalFn : String → Option PyVal) (s : String) :
    toPython evalFn (.pyStr s) =
      (if s = "true" then some (.pyBool true)
       else if s = "false" then some (.pyBool false)
       else
         match matchDatetime s with
         | some (y, mo, d, h, mi, sec) => mkDatetime y mo d h mi sec
         | none => evalBranch evalFn s) := rfl

theorem fromPython_datetime_length (y mo d h mi s u : Nat) :
    (fromPython (.pyDatetime y mo d h mi s u)).length = if u == 0 then 20 else 27 := by
  show (isoDate y mo d ++ "T" ++ isoTime h mi s u ++ "Z").length = _
  by_cases hu : (u == 0) = true
  · simp [hu, isoDate, isoTime, String.length_append, pad_length,
      show ("T" : String).length = 1 from rfl, show ("-" : String).length = 1 from rfl,
      show (":" : String).length = 1 from rfl, show ("Z" : String).length = 1 from rfl,
      show ("" : String).length = 0 from rfl]
  · simp [hu, isoDate, isoTime, String.length_append, pad_length,
      show ("T" : String).length = 1 from rfl, show ("-" : String).length = 1 from rfl,
      show (":" : String).length = 1 from rfl, show ("Z" : String).length = 1 from rfl,
      show ("." : String).length = 1 from rfl]

/-! ### Claim theorems -/

/-- Claim C6: for every date-time value, decoding the wire form produced by
`_from_python` with `_to_python` returns the date-time truncated to whole
seconds — all six calendar fields are preserved and the fractional part is
discarded — for any behaviour of the speculative `eval` pass. -/
theorem datetime_wire_roundtrip (evalFn : String → Option PyVal) (y mo d h mi s u : Nat)
    (hv : validYmdhms y mo d h mi s) (hu : u ≤ 999999) :
    toPython evalFn (.pyStr (fromPython (.pyDatetime y mo d h mi s u))) =
      some (.pyDatetime y mo d h mi s 0) := by
  obtain ⟨h1, h2, h3, h4, h5, h6, h7, h8, h9⟩ := hv
  have hd99 : d ≤ 99 := by
    refine le_trans h6 ?_
    split
    · split <;> norm_num
    · split <;> norm_num
  have hne1 : fromPython (.pyDatetime y mo d h mi s u) ≠ "true" := by
    intro hEq
    have hL := congrArg String.length hEq
    rw [fromPython_datetime_length] at hL
    by_cases hz : (u == 0) = true <;> simp only [hz, if_true, if_false] at hL <;>
      exact absurd hL (by decide)
  have hne2 : fromPython (.pyDatetime y mo d h mi s u) ≠ "false" := by
    intro hEq
    have hL := congrArg String.length hEq
    rw [fromPython_datetime_length] at hL
    by_cases hz : (u == 0) = true <;> simp only [hz, if_true, if_false] at hL <;>
      exact absurd hL (by decide)
  have hmatch : matchDatetime (fromPython (.pyDatetime y mo d h mi s u)) =
      some (y, mo, d, h, mi, s) := by
    show matchDatetime (isoDate y mo d ++ "T" ++ isoTime h mi s u ++ "Z") = _
    apply matchDatetime_iso <;> omega
  rw [toPython_pyStr, if_neg hne1, if_neg hne2, hmatch]
  show mkDatetime y mo d h mi s = _
  unfold mkDatetime
  rw [if_pos ⟨h1, h2, h3, h4, h5, h6, h7, h8, h9⟩]

/-- Witness for C6: the round-trip at `datetime(2013, 1, 18, 0, 30, 28,
500000)` — the microseconds are dropped, the rest survives. -/
theorem datetime_wire_roundtrip_witness :
    toPython (fun _ => none) (.pyStr (fromPython (.pyDatetime 2013 1 18 0 30 28 500000))) =
      some (.pyDatetime 2013 1 18 0 30 28 0) :=
  datetime_wire_roundtrip (fun _ => none) 2013 1 18 0 30 28 500000 (by decide) (by decide)

/-- Claim C5 as amended: for textual input that is not `true`/`false` and
does not match the date-time pattern, the speculative literal-parsing pass
returns the parsed value when it is a sequence, set, mapping, integer
(booleans included — Python's `bool` is an `int`), float or complex, and
returns the original text unchanged when the parse fails or yields any
other kind of value.  The claim as frozen omits complex from the accepted
kinds. -/
theorem toPython_literal_fallback (evalFn : String → Option PyVal) (s : String)
    (h1 : s ≠ "true") (h2 : s ≠ "false") (h3 : matchDatetime s = none) :
    toPython evalFn (.pyStr s) =
      some (match evalFn s with
            | some v => if builtinLiteralKind v then v else .pyStr s
            | none => .pyStr s) := by
  rw [toPython_pyStr, if_neg h1, if_neg h2, h3]
  show evalBranch evalFn s = _
  unfold evalBranch
  cases evalFn s with
  | none => rfl
  | some v =>
      by_cases hk : builtinLiteralKind v = true
      · simp [hk]
      · simp [hk]

/-- Witness for C5's amended theorem at the text `abc` with an `eval` that
raises. -/
theorem toPython_literal_fallback_witness :
    toPython (fun _ => none) (.pyStr "abc") = some (.pyStr "abc") :=
  toPython_literal_fallback (fun _ => none) "abc" (by decide) (by decide) rfl

/-- Counterexample to claim C5 as frozen: `eval("1j")` yields a complex
number, a kind outside the claim's set {sequence, set, mapping, integer,
float}, so the claim requires the original text `"1j"` back — but the code
accepts complex values and returns the parsed value. -/
theorem toPython_returns_complex_literal :
    toPython (fun t => if t = "1j" then some (.pyComplex "1j") else none) (.pyStr "1j") =
        some (.pyComplex "1j") ∧
      some (PyVal.pyComplex "1j") ≠ some (PyVal.pyStr "1j") := by
  constructor
  · rfl
  · intro hEq
    simp at hEq

theorem replaceRemove_eq_filter (l : List Char) (bad : Char) :
    replaceRemove l bad = l.filter fun c => !(c == bad) := by
  induction l with
  | nil => rfl
  | cons c t ih =>
      by_cases hc : c = bad
      · simp [replaceRemove, hc, ih]
      · simp [replaceRemove, hc, ih]

theorem foldl_replaceRemove (bads l : List Char) :
    bads.foldl replaceRemove l = l.filter fun c => !(bads.contains c) := by
  induction bads generalizing l with
  | nil => simp
  | cons b bs ih =>
      show bs.foldl replaceRemove (replaceRemove l b) = _
      rw [ih, replaceRemove_eq_filter, List.filter_filter]
      apply List.filter_congr
      intro c _
      simp only [List.contains_cons]
      cases hc : c == b <;> simp [hc]

/-- Claim C7: the sanitizer removes every byte of the enumerated set
(0x00–0x08, 0x0B, 0x0C, 0x0E–0x1F) and preserves every other byte of an
ASCII input — tab, newline and carriage return are not in the removal set —
unchanged and in order: the output is exactly the input filtered of the
enumerated bytes. -/
theorem sanitize_removes_enumerated_controls (input : String)
    (hmix : ∀ c ∈ input.toList, c ∈ replacementChars ∨ c.toNat < 127) :
    (sanitize input).toList = input.toList.filter (fun c => !(replacementChars.contains c)) ∧
      (∀ c ∈ (sanitize input).toList, ¬ c ∈ replacementChars) ∧
      ¬ '\x09' ∈ replacementChars ∧ ¬ '\x0a' ∈ replacementChars ∧
      ¬ '\x0d' ∈ replacementChars := by
  have hmain : (sanitize input).toList =
      input.toList.filter fun c => !(replacementChars.contains c) := by
    unfold sanitize
    rw [strToList_mk]
    exact foldl_replaceRemove _ _
  refine ⟨hmain, ?_, by decide, by decide, by decide⟩
  intro c hc hmem
  rw [hmain] at hc
  have hp := List.of_mem_filter hc
  have hcontains : replacementChars.contains c = true := List.elem_eq_true_of_mem hmem
  rw [hcontains] at hp
  simp at hp

/-- Witness for C7 on a mixed input holding removal-set bytes, tab, newline,
carriage return and printable ASCII. -/
theorem sanitize_removes_enumerated_controls_witness :
    (sanitize "h\x00e\x01l\x1blo\x0d\x0a\x09world").toList =
        ("h\x00e\x01l\x1blo\x0d\x0a\x09world" : String).toList.filter
          (fun c => !(replacementChars.contains c)) ∧
      (∀ c ∈ (sanitize "h\x00e\x01l\x1blo\x0d\x0a\x09world").toList,
        ¬ c ∈ replacementChars) ∧
      ¬ '\x09' ∈ replacementChars ∧ ¬ '\x0a' ∈ replacementChars ∧
      ¬ '\x0d' ∈ replacementChars :=
  sanitize_removes_enumerated_controls "h\x00e\x01l\x1blo\x0d\x0a\x09world" (by decide)

/-- Claim C2: every select request forces `wt=json`; with the encoded
parameter string at 1024 characters or more the dispatcher issues a POST to
the select path with the form content type and the encoded string as body,
and strictly below 1024 it issues a GET with the encoded query string
appended to the select path. -/
theorem selectReq_get_post_threshold (params : List (String × String)) :
    selectReq params =
      (if 1024 ≤ (safeUrlencode (setParam params "wt" "json")).length then
        { method := .post, path := "select/",
          body := some (safeUrlencode (setParam params "wt" "json")),
          headers := [("Content-type", "application/x-www-form-urlencoded; charset=utf-8")] }
      else
        { method := .get, path := "select/?" ++ safeUrlencode (setParam params "wt" "json"),
          body := none, headers := [] }) := by
  unfold selectReq
  by_cases hlen : (safeUrlencode (setParam params "wt" "json")).length < 1024
  · rw [if_pos hlen, if_neg (by omega)]
  · rw [if_neg hlen, if_pos (by omega)]

/-- Claim C8: `delete` with neither or both of `id`/`q` raises `ValueError`
with the transport invoked zero times; with exactly one of them, the
corresponding delete message is handed to `_update` and posted. -/
theorem delete_requires_exactly_one_selector (i q : String) (c wf ws : Option Bool) :
    requestsSent (deleteCmd none none c wf ws) = [] ∧
      deleteCmd none none c wf ws = .error (.valueError "You must specify \"id\" or \"q\".") ∧
      requestsSent (deleteCmd (some i) (some q) c wf ws) = [] ∧
      deleteCmd (some i) (some q) c wf ws =
        .error (.valueError "You many only specify \"id\" OR \"q\", not both.") ∧
      deleteCmd (some i) none c wf ws =
        .ok (updateReq ("<delete><id>" ++ i ++ "</id></delete>") true c wf ws) ∧
      deleteCmd none (some q) c wf ws =
        .ok (updateReq ("<delete><query>" ++ q ++ "</query></delete>") true c wf ws) :=
  ⟨rfl, rfl, rfl, rfl, rfl, rfl⟩

/-- Claim C9 as amended: `commit`, `waitFlush` and `waitSearcher` are
appended to the update path exactly when their value is not the null
marker, each serialized as a lowercase `true`/`false` token; `commit`,
however, defaults to true rather than to unset, so leaving it unset at a
call site still appends `commit=true` (see the counterexample). -/
theorem updateReq_appends_provided_params (msg : String) (clean : Bool)
    (c wf ws : Option Bool) :
    (updateReq msg clean c wf ws).path =
      (if c = none ∧ wf = none ∧ ws = none then "update/"
       else "update/?" ++ String.intercalate "&"
         ((c.elim [] fun b => ["commit=" ++ if b then "true" else "false"]) ++
          (wf.elim [] fun b => ["waitFlush=" ++ if b then "true" else "false"]) ++
          (ws.elim [] fun b => ["waitSearcher=" ++ if b then "true" else "false"]))) := by
  rcases c with _ | cb <;> rcases wf with _ | wb <;> rcases ws with _ | sb <;>
    simp [updateReq, boolQueryVar, Option.elim]

/-- Counterexample to claim C9 as frozen: `Solr.commit()` called with every
parameter left unset still sends `commit=true` on the update path, because
`_update`'s `commit` parameter defaults to true rather than to unset. -/
theorem commit_unset_still_appends_commit :
    (commitCmd none none none).path = "update/?commit=true" ∧
      "update/?commit=true" ≠ "update/" :=
  ⟨rfl, by decide⟩

/-- Claim C3 theorem (the code bug evaluated): a transport timeout makes the
handler format `error_message % [url, err]` with a list operand, which
raises `TypeError` instead of producing the descriptive `SolrError`; the
connection-error handler, which passes a proper tuple, does raise a single
`SolrError` naming the target URL and the cause. -/
theorem sendRequest_timeout_formatting_bug :
    sendRequest (fun _ body => (none, body)) (fun _ => none) "http://localhost:8983/solr"
        (.timeout "timed out") =
      .raised (.typeError "not enough arguments for format string") ∧
    sendRequest (fun _ body => (none, body)) (fun _ => none) "http://localhost:8983/solr"
        (.connError "econnrefused") =
      .raised (.solrError
        "Failed to connect to server at 'http://localhost:8983/solr', are you sure that URL is correct? Checking it in a browser might help: econnrefused") :=
  ⟨rfl, rfl⟩

/-- Counterexample to claim C4 as frozen: a 204 response — a 2xx success —
does not return the raw body; the dispatcher raises `SolrError` with the
extracted message, because the success test is `status != 200`, not
non-2xx. -/
theorem sendRequest_raises_on_2xx_success :
    ((200 : Nat) ≤ 204 ∧ (204 : Nat) < 300) ∧
      sendRequest (fun _ body => (none, body)) (fun _ => none) "http://localhost:8983/solr"
          (.response 204 (some "No Content") none "ok-body") =
        .raised (.solrError "[Reason: No Content]") :=
  ⟨by omega, rfl⟩

/-- Claim C4 as amended: a response with status exactly 200 returns the raw
body; every other status — 2xx successes other than 200 included — runs the
error extractor on the response and raises `SolrError` carrying the
extracted message.  No retry happens at this layer: the dispatcher performs
one transport call and maps its outcome directly. -/
theorem sendRequest_only_200_returns_body
    (scrapeFn : Option String → String → Option String × String)
    (n2c : String → Option Nat) (url : String) (status : Nat)
    (rh sh : Option String) (body : String) :
    sendRequest scrapeFn n2c url (.response status rh sh body) =
      (if status = 200 then .ok body
       else .raised (.solrError (extractError scrapeFn n2c rh sh body))) := by
  show (if (status != 200) = true then _ else _) = _
  by_cases hst : status = 200
  · subst hst
    simp
  · rw [if_neg hst, if_pos (by simp [bne_iff_ne, hst])]

/-- Claim C1 theorem (the code bug evaluated): for the document
`{"id": 1, "tags": ["a", ""]}` the builder emits a field element for the
empty `""` tag entry as well — the null check inside the multi-value loop
tests the whole container instead of the entry, so no entry is ever
skipped — although `""` is null per `_is_null_value`. -/
theorem add_message_keeps_null_multivalue_entry :
    (buildAddMessage [[("id", .pyInt 1), ("tags", .pyList [.pyStr "a", .pyStr ""])]]
        [] none).1 =
      { commitWithin := none,
        docs := [{ boostAttr := none,
                   fields := [{ name := "id", boostAttr := none, text := "1" },
                              { name := "tags", boostAttr := none, text := "a" },
                              { name := "tags", boostAttr := none, text := "" }] }] } ∧
      isNullValue (.pyStr "") = true :=
  ⟨rfl, rfl⟩

theorem pyStrOf_pyStr (s : String) : pyStrOf (.pyStr s) = s := rfl

theorem boostStringified_refl (b : BoostMap) : List.Forall₂ boostStringified b b := by
  induction b with
  | nil => exact List.Forall₂.nil
  | cons p t ih => exact List.Forall₂.cons ⟨rfl, Or.inl rfl⟩ ih

theorem boostStringified_setAssoc {orig cur : BoostMap}
    (hF : List.Forall₂ boostStringified orig cur) {k w : PyVal}
    (hw : lookupAssoc cur k = some w) :
    List.Forall₂ boostStringified orig (setAssoc cur k (.pyStr (pyStrOf w))) := by
  induction hF with
  | nil => simp [lookupAssoc] at hw
  | cons hpq htail ih =>
      rename_i p q ps qs
      obtain ⟨q1, q2⟩ := q
      by_cases hk : pyEq q1 k = true
      · have hw' : w = q2 := by
          rw [show lookupAssoc ((q1, q2) :: qs) k = some q2 from by simp [lookupAssoc, hk]]
            at hw
          exact (Option.some.inj hw).symm
        rw [hw']
        rw [show setAssoc ((q1, q2) :: qs) k (.pyStr (pyStrOf q2)) =
          (q1, .pyStr (pyStrOf q2)) :: qs from by simp [setAssoc, hk]]
        refine List.Forall₂.cons ⟨hpq.1, Or.inr ?_⟩ htail
        show PyVal.pyStr (pyStrOf q2) = PyVal.pyStr (pyStrOf p.2)
        rcases hpq.2 with hsame | hstr
        · have h2 : q2 = p.2 := hsame
          rw [h2]
        · have h2 : q2 = PyVal.pyStr (pyStrOf p.2) := hstr
          rw [h2, pyStrOf_pyStr]
      · have hw' : lookupAssoc qs k = some w := by
          rw [show lookupAssoc ((q1, q2) :: qs) k = lookupAssoc qs k from by
            simp [lookupAssoc, hk]] at hw
          exact hw
        rw [show setAssoc ((q1, q2) :: qs) k (.pyStr (pyStrOf w)) =
          (q1, q2) :: setAssoc qs k (.pyStr (pyStrOf w)) from by simp [setAssoc, hk]]
        exact List.Forall₂.cons hpq (ih hw')

theorem boostStringified_emitField {orig cur : BoostMap}
    (hF : List.Forall₂ boostStringified orig cur) (key : String) (lk v : PyVal) :
    List.Forall₂ boostStringified orig (emitField cur key lk v).2 := by
  unfold emitField
  by_cases hc : (!cur.isEmpty && (lookupAssoc cur lk).isSome) = true
  · rw [if_pos hc]
    have hboth := hc
    rw [Bool.and_eq_true] at hboth
    obtain ⟨w, hw⟩ := Option.isSome_iff_exists.mp hboth.2
    show List.Forall₂ boostStringified orig
      (setAssoc cur lk (.pyStr (pyStrOf ((lookupAssoc cur lk).getD .pyNone))))
    rw [hw, Option.getD_some]
    exact boostStringified_setAssoc hF hw
  · rw [if_neg hc]
    exact hF

theorem foldl_preserve {α β : Type} {P : α → Prop} (f : α → β → α) (l : List β) (a : α)
    (h0 : P a) (hstep : ∀ x b, P x → P (f x b)) : P (l.foldl f a) := by
  induction l generalizing a with
  | nil => exact h0
  | cons b t ih => exact ih _ (hstep _ _ h0)

theorem boostStringified_buildDocField {orig : BoostMap} (st : DocElem × BoostMap)
    (kv : String × PyVal) (hF : List.Forall₂ boostStringified orig st.2) :
    List.Forall₂ boostStringified orig (buildDocField st kv).2 := by
  unfold buildDocField
  by_cases hb : kv.1 = "boost"
  · simp only [hb, if_pos rfl]
    exact hF
  · rw [if_neg hb]
    cases hIt : iterElems kv.2 with
    | some vs =>
        apply foldl_preserve (P := fun st : DocElem × BoostMap =>
          List.Forall₂ boostStringified orig st.2) _ _ _ hF
        intro x b hx
        by_cases hnull : isNullValue kv.2 = true
        · rw [if_pos hnull]
          exact hx
        · rw [if_neg hnull]
          exact boostStringified_emitField hx _ _ _
    | none =>
        by_cases hnull : isNullValue kv.2 = true
        · rw [if_pos hnull]
          exact hF
        · rw [if_neg hnull]
          exact boostStringified_emitField hF _ _ _

/-- Claim C10 as amended: building the add message performs no network
I/O and reads the documents without changing them, but it does mutate the
caller's boost mapping in place: every entry keeps its key and position,
and its value is either untouched or replaced by the string form of the
original value (the in-place `boost[k] = str(boost[k])` coercion applied to
the entries the builder looks up). -/
theorem buildAddMessage_boost_effect (docs : List Document) (boost : BoostMap)
    (cw : Option String) :
    List.Forall₂ boostStringified boost (buildAddMessage docs boost cw).2 := by
  unfold buildAddMessage
  apply foldl_preserve (P := fun st : AddMessage × BoostMap =>
    List.Forall₂ boostStringified boost st.2) _ _ _ (boostStringified_refl boost)
  intro x doc hx
  show List.Forall₂ boostStringified boost (buildDoc x.2 doc).2
  unfold buildDoc
  exact foldl_preserve (P := fun st : DocElem × BoostMap =>
      List.Forall₂ boostStringified boost st.2) _ _ _ hx
    fun st kv h => boostStringified_buildDocField st kv h

/-- Counterexample to claim C10 as frozen: with one document `{"id": "1"}`
and boost `{"id": 2}`, message construction leaves the boost mapping
holding the string `"2"` — the caller's mapping is changed. -/
theorem buildAddMessage_mutates_boost_example :
    (buildAddMessage [[("id", .pyStr "1")]] [(.pyStr "id", .pyInt 2)] none).2 =
        [(.pyStr "id", .pyStr "2")] ∧
      [(PyVal.pyStr "id", PyVal.pyStr "2")] ≠ [(PyVal.pyStr "id", PyVal.pyInt 2)] := by
  refine ⟨rfl, ?_⟩
  intro hEq
  simp at hEq

end PySolr
